import Mathlib

/-!
Verification development for the kanby kanban board server.

The definitions below are a shallow embedding, translated from the
TypeScript sources:
  * `src/lib/position.ts` (fractional position allocator),
  * the API route transactions (board / list / card CRUD, card move,
    activity clear, activity query, undo) which run against a Prisma
    store, modelled here as explicit state passing over a `DB` record,
  * `src/lib/realtime.ts` (in-process publish/subscribe registry).

JavaScript `number` arithmetic is modelled by exact rational arithmetic
(`Rat`).  Every concrete computation proved about `positionBetween`
stays far from the region where binary64 rounding and exact rational
arithmetic could disagree, and this is noted at the relevant theorems.
Database timestamps are modelled by a logical clock `DB.now` that is
bumped at every write, matching the monotonic-clock assumption the
storage layer provides.  Prisma `findFirst(orderBy: desc)` row
selections that are only read for their maximal field are modelled by
a fold computing that maximum.
-/

namespace Kanby

/-- From `src/lib/position.ts`: `positionAfter(last) = (last ?? 0) + 1`. -/
def positionAfter (last : Option Rat) : Rat :=
  last.getD 0 + 1

/-- From `src/lib/position.ts`: `positionBetween`.  `none` models
`null`/`undefined`.  The midpoint test `mid === prev || mid === next`
is kept verbatim; over exact rationals the midpoint of two numbers
equals an endpoint exactly when the endpoints coincide. -/
def positionBetween (prev next : Option Rat) : Rat :=
  match prev, next with
  | none, none => 0
  | none, some n => n - 1
  | some p, none => p + 1
  | some p, some n =>
    let mid := (p + n) / 2
    if mid = p ∨ mid = n then p + 1 / 10000 else mid

/-- Entity kinds stored on an activity event (Prisma enum `EntityType`). -/
inductive EntityType
  | BOARD
  | LIST
  | CARD
deriving DecidableEq, Repr

/-- The request actor resolved by `src/lib/actor.ts` (user id, display
name, per-device client id). -/
structure Actor where
  actorUserId : Option String
  actorName : String
  actorClientId : String
deriving DecidableEq, Repr

/-- A `Board` row. -/
structure Board where
  id : String
  name : String
  createdAt : Nat
  updatedAt : Nat
deriving DecidableEq, Repr

/-- A `List` row (named `BoardList` here because `List` is taken). -/
structure BoardList where
  id : String
  boardId : String
  title : String
  position : Rat
  createdAt : Nat
  updatedAt : Nat
deriving DecidableEq, Repr

/-- A `Card` row.  `dueAt` is a nullable timestamp. -/
structure Card where
  id : String
  boardId : String
  listId : String
  title : String
  description : String
  dueAt : Option Int
  position : Rat
  createdAt : Nat
  updatedAt : Nat
deriving DecidableEq, Repr

/-- One JSON object stored inside an event's `data.before` / `data.after`.
Each field is optional: `none` means the key is absent (or has a type the
route code's shape checks would reject).  `dueAt` distinguishes an
explicit JSON `null` (`some none`) from an absent key (`none`) because
the undo route's `v.dueAt ?? undefined` coalescing makes that visible. -/
structure Payload where
  id : Option String := none
  boardId : Option String := none
  listId : Option String := none
  title : Option String := none
  description : Option String := none
  dueAt : Option (Option Int) := none
  position : Option Rat := none
  name : Option String := none
  cardCount : Option Nat := none
  createdAtField : Option Nat := none
  updatedAtField : Option Nat := none
deriving DecidableEq, Repr

/-- The opaque `data` JSON column of an `ActivityEvent`: `{before, after}`
snapshots plus, on `card.undone` events, `revertedEventId`. -/
structure EventData where
  before : Option Payload := none
  after : Option Payload := none
  revertedEventId : Option String := none
deriving DecidableEq, Repr

/-- An `ActivityEvent` row. -/
structure ActivityEvent where
  id : String
  boardId : String
  entityType : EntityType
  entityId : String
  type : String
  actorUserId : Option String
  actorName : String
  actorClientId : String
  data : EventData
  createdAt : Nat
deriving DecidableEq, Repr

/-- The durable store: all rows plus a logical clock (`now`, stamped on
writes and then bumped, so timestamps are strictly increasing) and a
counter for generated ids. -/
structure DB where
  boards : List Board
  lists : List BoardList
  cards : List Card
  events : List ActivityEvent
  now : Nat
  nextId : Nat
deriving DecidableEq, Repr

/-- Maximum of a list of elements of a linear order, `none` on `[]`.
Models Prisma `findFirst(orderBy: {field: "desc"})` when only the
maximal field value is consumed. -/
def listMax {A : Type} [LinearOrder A] : List A → Option A
  | [] => none
  | x :: xs =>
    match listMax xs with
    | none => some x
    | some m => some (max x m)

/-- Highest `position` among the cards of list `lid` (the move/create
routes' `findFirst({where: {listId}, orderBy: {position: "desc"}})`). -/
def lastCardPosition (cards : List Card) (lid : String) : Option Rat :=
  listMax ((cards.filter (fun c => c.listId == lid)).map (fun c => c.position))

/-- Highest `position` among the lists of board `bid`. -/
def lastListPosition (lists : List BoardList) (bid : String) : Option Rat :=
  listMax ((lists.filter (fun l => l.boardId == bid)).map (fun l => l.position))

/-- Full card snapshot as logged in event payloads (the routes' wide
`select` including timestamps). -/
def cardToPayload (c : Card) : Payload :=
  { id := some c.id, boardId := some c.boardId, listId := some c.listId,
    title := some c.title, description := some c.description,
    dueAt := some c.dueAt, position := some c.position,
    createdAtField := some c.createdAt, updatedAtField := some c.updatedAt }

/-- Card snapshot without timestamps (the `PATCH /cards/[cardId]` route
selects `before` without `createdAt`/`updatedAt`). -/
def cardToPayloadCore (c : Card) : Payload :=
  { id := some c.id, boardId := some c.boardId, listId := some c.listId,
    title := some c.title, description := some c.description,
    dueAt := some c.dueAt, position := some c.position }

/-- List snapshot as logged by `list.*` events. -/
def listToPayload (l : BoardList) : Payload :=
  { id := some l.id, boardId := some l.boardId, title := some l.title,
    position := some l.position,
    createdAtField := some l.createdAt, updatedAtField := some l.updatedAt }

/-- List snapshot without `boardId` (the create-board route selects
default lists without it). -/
def listToPayloadNoBoard (l : BoardList) : Payload :=
  { id := some l.id, title := some l.title, position := some l.position,
    createdAtField := some l.createdAt, updatedAtField := some l.updatedAt }

/-- Board snapshot as logged by `board.*` events. -/
def boardToPayload (b : Board) : Payload :=
  { id := some b.id, name := some b.name,
    createdAtField := some b.createdAt, updatedAtField := some b.updatedAt }

/-- Append one `ActivityEvent` (Prisma `tx.activityEvent.create`): the
event gets a generated id and the current clock value, and the clock and
id counter advance. -/
def logEvent (db : DB) (actor : Actor) (bid : String) (et : EntityType)
    (entId ty : String) (d : EventData) : ActivityEvent × DB :=
  let ev : ActivityEvent :=
    { id := "e" ++ toString db.nextId,
      boardId := bid, entityType := et, entityId := entId, type := ty,
      actorUserId := actor.actorUserId, actorName := actor.actorName,
      actorClientId := actor.actorClientId, data := d, createdAt := db.now }
  (ev, { db with events := db.events ++ [ev], now := db.now + 1, nextId := db.nextId + 1 })

/-- Models `tx.board.update({data: {updatedAt: new Date()}})`: bump the owning
board's `updatedAt`. -/
def touchBoard (db : DB) (bid : String) : DB :=
  { db with
    boards := db.boards.map (fun b => if b.id == bid then { b with updatedAt := db.now } else b),
    now := db.now + 1 }

/-- Result of `POST /api/boards` (always succeeds). -/
inductive CreateBoardRes
  | ok (board : Board) (lists : List BoardList)
deriving DecidableEq, Repr

/-- Transaction of `POST /api/boards` (`src/app/api/boards/route.ts`):
create the board, the three default lists Todo/Doing/Done at positions
1/2/3, one `board.created` event, and one `list.created` event per
default list (`createMany`). -/
def createBoardTx (actor : Actor) (nameArg : Option String) (db : DB) :
    CreateBoardRes × DB :=
  let nm := nameArg.getD "My Board"
  let board : Board :=
    { id := "b" ++ toString db.nextId, name := nm, createdAt := db.now, updatedAt := db.now }
  let db := { db with boards := db.boards ++ [board], now := db.now + 1, nextId := db.nextId + 1 }
  let l1 : BoardList :=
    { id := "l" ++ toString db.nextId, boardId := board.id, title := "Todo",
      position := 1, createdAt := db.now, updatedAt := db.now }
  let db := { db with lists := db.lists ++ [l1], now := db.now + 1, nextId := db.nextId + 1 }
  let l2 : BoardList :=
    { id := "l" ++ toString db.nextId, boardId := board.id, title := "Doing",
      position := 2, createdAt := db.now, updatedAt := db.now }
  let db := { db with lists := db.lists ++ [l2], now := db.now + 1, nextId := db.nextId + 1 }
  let l3 : BoardList :=
    { id := "l" ++ toString db.nextId, boardId := board.id, title := "Done",
      position := 3, createdAt := db.now, updatedAt := db.now }
  let db := { db with lists := db.lists ++ [l3], now := db.now + 1, nextId := db.nextId + 1 }
  let (_, db) := logEvent db actor board.id .BOARD board.id "board.created"
    { before := none, after := some (boardToPayload board) }
  let (_, db) := logEvent db actor board.id .LIST l1.id "list.created"
    { before := none, after := some (listToPayloadNoBoard l1) }
  let (_, db) := logEvent db actor board.id .LIST l2.id "list.created"
    { before := none, after := some (listToPayloadNoBoard l2) }
  let (_, db) := logEvent db actor board.id .LIST l3.id "list.created"
    { before := none, after := some (listToPayloadNoBoard l3) }
  (.ok board [l1, l2, l3], db)

/-- Result of `PATCH /api/boards/[boardId]`. -/
inductive RenameBoardRes
  | notFound
  | ok (board : Board)
deriving DecidableEq, Repr

/-- Transaction of `PATCH /api/boards/[boardId]`: rename and log one
`board.renamed` event with before/after board snapshots.  (This route
does not touch `updatedAt` separately: the rename itself updates the
row, which Prisma stamps.) -/
def renameBoardTx (actor : Actor) (bid nm : String) (db : DB) : RenameBoardRes × DB :=
  match db.boards.find? (fun b => b.id == bid) with
  | none => (.notFound, db)
  | some before =>
    let after := { before with name := nm, updatedAt := db.now }
    let db := { db with
      boards := db.boards.map (fun b => if b.id == before.id then after else b),
      now := db.now + 1 }
    let (_, db) := logEvent db actor before.id .BOARD before.id "board.renamed"
      { before := some (boardToPayload before), after := some (boardToPayload after) }
    (.ok after, db)

/-- Result of `DELETE /api/boards/[boardId]`. -/
inductive DeleteBoardRes
  | notFound
  | deleted (boardId : String)
deriving DecidableEq, Repr

/-- Transaction of `DELETE /api/boards/[boardId]`: delete the board; the
schema's `onDelete: Cascade` removes its lists, cards and activity
events.  No activity event is created. -/
def deleteBoardTx (bid : String) (db : DB) : DeleteBoardRes × DB :=
  match db.boards.find? (fun b => b.id == bid) with
  | none => (.notFound, db)
  | some before =>
    (.deleted before.id,
      { db with
        boards := db.boards.filter (fun b => !(b.id == before.id)),
        lists := db.lists.filter (fun l => !(l.boardId == before.id)),
        cards := db.cards.filter (fun c => !(c.boardId == before.id)),
        events := db.events.filter (fun e => !(e.boardId == before.id)) })

/-- Result of `POST /api/boards/[boardId]/lists`. -/
inductive CreateListRes
  | ok (list : BoardList)
deriving DecidableEq, Repr

/-- Transaction of `POST /api/boards/[boardId]/lists`: position =
`positionAfter(max existing position in board)`, one `list.created`
event, board touch. -/
def createListTx (actor : Actor) (bid title : String) (db : DB) : CreateListRes × DB :=
  let list : BoardList :=
    { id := "l" ++ toString db.nextId, boardId := bid, title := title,
      position := positionAfter (lastListPosition db.lists bid),
      createdAt := db.now, updatedAt := db.now }
  let db := { db with lists := db.lists ++ [list], now := db.now + 1, nextId := db.nextId + 1 }
  let (_, db) := logEvent db actor bid .LIST list.id "list.created"
    { before := none, after := some (listToPayload list) }
  let db := touchBoard db bid
  (.ok list, db)

/-- Result of `PATCH /api/boards/[boardId]/lists/[listId]`. -/
inductive RenameListRes
  | notFound
  | ok (list : BoardList)
deriving DecidableEq, Repr

/-- Transaction of `PATCH /api/boards/[boardId]/lists/[listId]`: the list
must exist on this board; rename, log one `list.renamed` event, touch
the board. -/
def renameListTx (actor : Actor) (bid lid title : String) (db : DB) : RenameListRes × DB :=
  match db.lists.find? (fun l => l.id == lid && l.boardId == bid) with
  | none => (.notFound, db)
  | some before =>
    let after := { before with title := title, updatedAt := db.now }
    let db := { db with
      lists := db.lists.map (fun l => if l.id == before.id then after else l),
      now := db.now + 1 }
    let (_, db) := logEvent db actor bid .LIST before.id "list.renamed"
      { before := some (listToPayload before), after := some (listToPayload after) }
    let db := touchBoard db bid
    (.ok after, db)

/-- Result of `DELETE /api/boards/[boardId]/lists/[listId]`. -/
inductive DeleteListRes
  | notFound
  | deleted (listId boardId : String) (cardCount : Nat)
deriving DecidableEq, Repr

/-- Transaction of `DELETE /api/boards/[boardId]/lists/[listId]`: delete
the list (cascading its cards), log one `list.deleted` event whose
`before` snapshot carries a `cardCount` annotation, touch the board.
The cascaded cards get no `card.deleted` events of their own. -/
def deleteListTx (actor : Actor) (bid lid : String) (db : DB) : DeleteListRes × DB :=
  match db.lists.find? (fun l => l.id == lid && l.boardId == bid) with
  | none => (.notFound, db)
  | some before =>
    let cardCount := (db.cards.filter (fun c => c.listId == before.id)).length
    let db := { db with
      lists := db.lists.filter (fun l => !(l.id == before.id)),
      cards := db.cards.filter (fun c => !(c.listId == before.id)) }
    let (_, db) := logEvent db actor bid .LIST before.id "list.deleted"
      { before := some { listToPayload before with cardCount := some cardCount }, after := none }
    let db := touchBoard db bid
    (.deleted before.id before.boardId cardCount, db)

/-- Result of `POST /api/boards/[boardId]/lists/[listId]/cards`. -/
inductive CreateCardRes
  | ok (card : Card)
deriving DecidableEq, Repr

/-- Transaction of the create-card route: append to the end of the target
list (`positionAfter` of the list's max position), one `card.created`
event with `before: null`, board touch. -/
def createCardTx (actor : Actor) (bid lid title description : String)
    (dueAt : Option Int) (db : DB) : CreateCardRes × DB :=
  let card : Card :=
    { id := "c" ++ toString db.nextId, boardId := bid, listId := lid,
      title := title, description := description, dueAt := dueAt,
      position := positionAfter (lastCardPosition db.cards lid),
      createdAt := db.now, updatedAt := db.now }
  let db := { db with cards := db.cards ++ [card], now := db.now + 1, nextId := db.nextId + 1 }
  let (_, db) := logEvent db actor bid .CARD card.id "card.created"
    { before := none, after := some (cardToPayload card) }
  let db := touchBoard db bid
  (.ok card, db)

/-- Body of `PATCH /api/cards/[cardId]` after zod validation: each field
optional; `dueAt := some none` is an explicit JSON `null` (clear the due
date). -/
structure CardPatchInput where
  title : Option String := none
  description : Option String := none
  dueAt : Option (Option Int) := none
deriving DecidableEq, Repr

/-- Result of `PATCH /api/cards/[cardId]`. -/
inductive UpdateCardRes
  | notFound
  | ok (card : Card)
deriving DecidableEq, Repr

/-- Transaction of `PATCH /api/cards/[cardId]`: apply the supplied
fields, log one `card.updated` event with full before/after snapshots,
touch the board. -/
def updateCardTx (actor : Actor) (cid : String) (inp : CardPatchInput) (db : DB) :
    UpdateCardRes × DB :=
  match db.cards.find? (fun c => c.id == cid) with
  | none => (.notFound, db)
  | some before =>
    let after := { before with
      title := inp.title.getD before.title,
      description := inp.description.getD before.description,
      dueAt := match inp.dueAt with | none => before.dueAt | some v => v,
      updatedAt := db.now }
    let db := { db with
      cards := db.cards.map (fun c => if c.id == before.id then after else c),
      now := db.now + 1 }
    let (_, db) := logEvent db actor before.boardId .CARD before.id "card.updated"
      { before := some (cardToPayloadCore before), after := some (cardToPayload after) }
    let db := touchBoard db before.boardId
    (.ok after, db)

/-- Result of `DELETE /api/cards/[cardId]`. -/
inductive DeleteCardRes
  | notFound
  | deleted (cardId boardId : String)
deriving DecidableEq, Repr

/-- Transaction of `DELETE /api/cards/[cardId]`: delete the card, log one
`card.deleted` event with the full before snapshot and `after: null`,
touch the board. -/
def deleteCardTx (actor : Actor) (cid : String) (db : DB) : DeleteCardRes × DB :=
  match db.cards.find? (fun c => c.id == cid) with
  | none => (.notFound, db)
  | some before =>
    let db := { db with cards := db.cards.filter (fun c => !(c.id == before.id)) }
    let (_, db) := logEvent db actor before.boardId .CARD before.id "card.deleted"
      { before := some (cardToPayload before), after := none }
    let db := touchBoard db before.boardId
    (.deleted before.id before.boardId, db)

/-- Result of `POST /api/cards/[cardId]/move`. -/
inductive MoveCardRes
  | notFound
  | invalidNeighbors
  | moved (card : Card)
deriving DecidableEq, Repr

/-- Look up an optional neighbor id (`findUnique` when the id was
supplied, `null` otherwise). -/
def resolveNeighbor (db : DB) (o : Option String) : Option Card :=
  match o with
  | none => none
  | some cid => db.cards.find? (fun c => c.id == cid)

/-- Transaction of `POST /api/cards/[cardId]/move`
(`src/app/api/cards/[cardId]/move/route.ts`): resolve the optional
neighbors; a resolved neighbor outside the destination list is a
conflict; with no resolved neighbor the card is appended after the
destination list's last card (`positionBetween(last ?? null, null)`);
otherwise the position comes from `positionBetween` on the neighbors'
positions.  Logs one `card.moved` event with `{listId, position}`
before/after snapshots only, then touches the board. -/
def moveCardTx (actor : Actor) (cid toListId : String)
    (beforeCardId afterCardId : Option String) (db : DB) : MoveCardRes × DB :=
  match db.cards.find? (fun c => c.id == cid) with
  | none => (.notFound, db)
  | some card =>
    let beforeNeighbor := resolveNeighbor db beforeCardId
    let afterNeighbor := resolveNeighbor db afterCardId
    if (beforeNeighbor.map (fun n => !(n.listId == toListId))).getD false then
      (.invalidNeighbors, db)
    else if (afterNeighbor.map (fun n => !(n.listId == toListId))).getD false then
      (.invalidNeighbors, db)
    else
      let nextPos :=
        match beforeNeighbor, afterNeighbor with
        | none, none => positionBetween (lastCardPosition db.cards toListId) none
        | b, a => positionBetween (b.map (fun n => n.position)) (a.map (fun n => n.position))
      let updated := { card with listId := toListId, position := nextPos, updatedAt := db.now }
      let db := { db with
        cards := db.cards.map (fun c => if c.id == card.id then updated else c),
        now := db.now + 1 }
      let (_, db) := logEvent db actor card.boardId .CARD card.id "card.moved"
        { before := some { listId := some card.listId, position := some card.position },
          after := some { listId := some updated.listId, position := some updated.position } }
      let db := touchBoard db card.boardId
      (.moved updated, db)

/-- Result of `POST /api/boards/[boardId]/activity/clear`. -/
inductive ClearActivityRes
  | notFound
  | cleared (eventId : String) (atTime : Nat)
deriving DecidableEq, Repr

/-- Transaction of `POST /api/boards/[boardId]/activity/clear`: the board
must exist; append one `activity.cleared` marker event tagged with the
clearing actor's client id (no event is deleted), touch the board. -/
def clearActivityTx (actor : Actor) (bid : String) (db : DB) : ClearActivityRes × DB :=
  match db.boards.find? (fun b => b.id == bid) with
  | none => (.notFound, db)
  | some _ =>
    let (ev, db) := logEvent db actor bid .BOARD bid "activity.cleared"
      { before := none, after := none }
    let db := touchBoard db bid
    (.cleared ev.id ev.createdAt, db)

/-- Effective query limit of the activity GET routes:
`Math.min(Math.max(parseInt(limitRaw, 10) || 50, 1), 200)` with
`limitRaw` defaulting to `"50"`.  The argument is the parsed query
parameter: `none` when it is absent or does not parse to a number
(`parseInt` gave `NaN`); `some n` when it parsed to the integer `n`.
Note `0` falls into the `|| 50` fallback exactly like `NaN`. -/
def effectiveLimit (lo : Option Int) : Nat :=
  let v : Int :=
    match lo with
    | none => 50
    | some n => if n = 0 then 50 else n
  (min (max v 1) 200).toNat

/-- Newest first: the ordering relation used by
`orderBy: { createdAt: "desc" }`. -/
def newerFirst (a b : ActivityEvent) : Prop :=
  b.createdAt ≤ a.createdAt

instance : DecidableRel newerFirst :=
  fun a b => Nat.decLe b.createdAt a.createdAt

instance : IsTotal ActivityEvent newerFirst :=
  ⟨fun a b => Nat.le_total b.createdAt a.createdAt⟩

instance : IsTrans ActivityEvent newerFirst :=
  ⟨fun _ _ _ h1 h2 => Nat.le_trans h2 h1⟩

/-- The `createdAt` of the querying actor's most recent `activity.cleared`
marker on this board (`findFirst` ordered by `createdAt` descending),
if any. -/
def latestClearedAt (events : List ActivityEvent) (bid cid : String) : Option Nat :=
  listMax ((events.filter (fun e =>
    e.boardId == bid && e.type == "activity.cleared" && e.actorClientId == cid)).map
      (fun e => e.createdAt))

/-- The `where` clause of the activity query in
`src/app/api/boards/[boardId]/lists/route.ts` `GET`: board match, plus
`createdAt > clearedAt` when the querying actor has a clear marker. -/
def visibleEvents (db : DB) (bid cid : String) : List ActivityEvent :=
  db.events.filter (fun e =>
    e.boardId == bid &&
      (match latestClearedAt db.events bid cid with
       | none => true
       | some t => decide (t < e.createdAt)))

/-- The activity GET route: filtered events of the board, newest first,
truncated to the effective limit. -/
def activityQuery (db : DB) (bid cid : String) (lo : Option Int) : List ActivityEvent :=
  (List.insertionSort newerFirst (visibleEvents db bid cid)).take (effectiveLimit lo)

/-- Parsed card snapshot (`CardState` in the undo route): `id`,
`boardId`, `listId` are required strings, the rest optional. -/
structure CardState where
  id : String
  boardId : String
  listId : String
  title : Option String := none
  description : Option String := none
  dueAt : Option Int := none
  position : Option Rat := none
deriving DecidableEq, Repr

/-- Partial card patch (`CardPatch` in the undo route). -/
structure CardPatch where
  listId : Option String := none
  title : Option String := none
  description : Option String := none
  dueAt : Option Int := none
  position : Option Rat := none
deriving DecidableEq, Repr

/-- The `asCardState` parser of the undo route: requires `id`, `boardId`, `listId`
to be strings, keeps the valid optional fields.  A JSON `null` `dueAt`
collapses to "absent" (`v.dueAt ?? undefined`). -/
def asCardState : Option Payload → Option CardState
  | none => none
  | some v =>
    match v.id, v.boardId, v.listId with
    | some i, some b, some l =>
      some { id := i, boardId := b, listId := l,
             title := v.title, description := v.description,
             dueAt := v.dueAt.bind (fun x => x), position := v.position }
    | _, _, _ => none

/-- The `asCardPatch` parser of the undo route: collect whatever valid fields are
present; `null` if none is. -/
def asCardPatch : Option Payload → Option CardPatch
  | none => none
  | some v =>
    let patch : CardPatch :=
      { listId := v.listId, title := v.title, description := v.description,
        dueAt := v.dueAt.bind (fun x => x), position := v.position }
    if patch.listId = none ∧ patch.title = none ∧ patch.description = none ∧
        patch.dueAt = none ∧ patch.position = none then
      none
    else
      some patch

/-- The `beforeState satisfies CardPatch` coercion: a full parsed state
used as a patch. -/
def cardStateToPatch (st : CardState) : CardPatch :=
  { listId := some st.listId, title := st.title, description := st.description,
    dueAt := st.dueAt, position := st.position }

/-- The `beforePatch` value of the undo route: the parsed `before` state if it
parses as a full card state, else whatever partial patch `before`
yields. -/
def eventBeforePatch (d : EventData) : Option CardPatch :=
  match asCardState d.before with
  | some st => some (cardStateToPatch st)
  | none => asCardPatch d.before

/-- The `updateData` construction of the undo route for
`card.moved` / `card.updated`: overwrite exactly the fields present in
the patch (for `listId`, present *and truthy*, i.e. non-empty), keep
every other field of the current card. -/
def applyBeforePatch (p : CardPatch) (c : Card) (now : Nat) : Card :=
  { c with
    listId :=
      match p.listId with
      | some l => if l == "" then c.listId else l
      | none => c.listId,
    position := p.position.getD c.position,
    title := p.title.getD c.title,
    description := p.description.getD c.description,
    dueAt := match p.dueAt with | some v => some v | none => c.dueAt,
    updatedAt := now }

/-- The idempotency probe of the undo route: an existing `card.undone`
event on the same board whose payload `revertedEventId` equals the
target event's id. -/
def isUndoMarker (event e : ActivityEvent) : Bool :=
  e.boardId == event.boardId && e.type == "card.undone" &&
    e.data.revertedEventId == some event.id

/-- Result of `POST /api/activity/[eventId]/undo`. -/
inductive UndoRes
  | notFound
  | alreadyUndone
  | invalidData
  | unsupported (reason : String)
  | undoneDeleted (cardId : String)
  | undoneReverted (card : Card)
  | undoneRestored (card : Card)
deriving DecidableEq, Repr

/-- Undo of a `card.created` event: delete the card (NotFound if it is
already gone), log `card.undone` with the deleted snapshot, touch the
board. -/
def undoCardCreated (actor : Actor) (event : ActivityEvent) (db : DB) : UndoRes × DB :=
  match db.cards.find? (fun c => c.id == event.entityId) with
  | none => (.notFound, db)
  | some existing =>
    let db := { db with cards := db.cards.filter (fun c => !(c.id == event.entityId)) }
    let (_, db) := logEvent db actor event.boardId .CARD event.entityId "card.undone"
      { before := some (cardToPayload existing), after := none,
        revertedEventId := some event.id }
    let db := touchBoard db event.boardId
    (.undoneDeleted event.entityId, db)

/-- Undo of a `card.moved` / `card.updated` event: apply the logged
`before` snapshot as a patch to the current card, log `card.undone`,
touch the board. -/
def undoCardPatchEvent (actor : Actor) (event : ActivityEvent) (db : DB) : UndoRes × DB :=
  match eventBeforePatch event.data with
  | none => (.invalidData, db)
  | some patch =>
    match db.cards.find? (fun c => c.id == event.entityId) with
    | none => (.notFound, db)
    | some current =>
      let updated := applyBeforePatch patch current db.now
      let db := { db with
        cards := db.cards.map (fun c => if c.id == event.entityId then updated else c),
        now := db.now + 1 }
      let (_, db) := logEvent db actor event.boardId .CARD event.entityId "card.undone"
        { before := some (cardToPayload current), after := some (cardToPayload updated),
          revertedEventId := some event.id }
      let db := touchBoard db event.boardId
      (.undoneReverted updated, db)

/-- Undo of a `card.deleted` event: recreate the card from the logged
`before` snapshot, preserving its id; requires the snapshot's list to
still exist on the snapshot's board; an already-existing card with that
id means the undo already happened. -/
def undoCardDeleted (actor : Actor) (event : ActivityEvent) (db : DB) : UndoRes × DB :=
  match asCardState event.data.before with
  | none => (.invalidData, db)
  | some st =>
    match db.lists.find? (fun l => l.id == st.listId) with
    | none => (.unsupported "Cannot restore: original list no longer exists", db)
    | some l =>
      if l.boardId ≠ st.boardId then
        (.unsupported "Cannot restore: original list no longer exists", db)
      else
        match db.cards.find? (fun c => c.id == st.id) with
        | some _ => (.alreadyUndone, db)
        | none =>
          let created : Card :=
            { id := st.id, boardId := st.boardId, listId := st.listId,
              title := st.title.getD "Untitled",
              description := st.description.getD "",
              dueAt := st.dueAt,
              position := st.position.getD 0,
              createdAt := db.now, updatedAt := db.now }
          let db := { db with cards := db.cards ++ [created], now := db.now + 1 }
          let (_, db) := logEvent db actor event.boardId .CARD event.entityId "card.undone"
            { before := none, after := some (cardToPayload created),
              revertedEventId := some event.id }
          let db := touchBoard db event.boardId
          (.undoneRestored created, db)

/-- Dispatch of the undo route over the event's `type` tag. -/
def undoCardEvent (actor : Actor) (event : ActivityEvent) (db : DB) : UndoRes × DB :=
  if event.type = "card.created" then
    undoCardCreated actor event db
  else if event.type = "card.moved" ∨ event.type = "card.updated" then
    undoCardPatchEvent actor event db
  else if event.type = "card.deleted" then
    undoCardDeleted actor event db
  else
    (.unsupported ("Undo not implemented for event type: " ++ event.type), db)

/-- Transaction of `POST /api/activity/[eventId]/undo`
(`src/unnamed/part_007`): look up the event; return the `alreadyUndone`
no-op success if a `card.undone` event already references it; only CARD
events are undoable; then dispatch on the event type. -/
def undoTx (actor : Actor) (eid : String) (db : DB) : UndoRes × DB :=
  match db.events.find? (fun e => e.id == eid) with
  | none => (.notFound, db)
  | some event =>
    match db.events.find? (fun e => isUndoMarker event e) with
    | some _ => (.alreadyUndone, db)
    | none =>
      if event.entityType = .CARD then
        undoCardEvent actor event db
      else
        (.unsupported "Only card events can be undone right now", db)

/-- The process-wide realtime registry of `src/lib/realtime.ts`:
`Map<string, Set<Subscriber>>` keyed by board id.  Subscribers are
identified by opaque tokens (`Nat`); a subscriber's runtime behavior is
supplied separately as a `throws` predicate when publishing. -/
structure Registry where
  subscribersByBoard : List (String × List Nat)
deriving DecidableEq, Repr

/-- The set of callbacks currently subscribed to a board. -/
def getSubscribers (r : Registry) (bid : String) : List Nat :=
  match r.subscribersByBoard.find? (fun p => p.1 == bid) with
  | none => []
  | some p => p.2

/-- Models `subscribeToBoard`: add the callback to the board's set (sets ignore
duplicates) and store the set back. -/
def subscribeToBoard (r : Registry) (bid : String) (cb : Nat) : Registry :=
  let current := getSubscribers r bid
  let updated := if cb ∈ current then current else current ++ [cb]
  { subscribersByBoard :=
      if (r.subscribersByBoard.find? (fun p => p.1 == bid)).isSome then
        r.subscribersByBoard.map (fun p => if p.1 == bid then (p.1, updated) else p)
      else
        r.subscribersByBoard ++ [(bid, updated)] }

/-- The unsubscribe closure returned by `subscribeToBoard`: remove the
callback and drop the board's entry once its set is empty. -/
def unsubscribeFromBoard (r : Registry) (bid : String) (cb : Nat) : Registry :=
  match r.subscribersByBoard.find? (fun p => p.1 == bid) with
  | none => r
  | some p =>
    let remaining := p.2.filter (fun c => !(c == cb))
    if remaining.isEmpty then
      { subscribersByBoard := r.subscribersByBoard.filter (fun q => !(q.1 == bid)) }
    else
      { subscribersByBoard :=
          r.subscribersByBoard.map (fun q => if q.1 == bid then (q.1, remaining) else q) }

/-- One `cb(event)` invocation: it either returns or raises. -/
def runSubscriber (throws : Nat → Bool) (cb : Nat) : Except Unit Unit :=
  if throws cb then .error () else .ok ()

/-- The delivery loop of `publishBoardEvent`: `try { cb(event) } catch
{ /\* ignore \*/ }` for each subscriber in order.  Returns the list of
callbacks that were invoked and whether an exception escaped to the
publisher (an uncaught error would abort the loop; the catch swallows
both outcomes and continues). -/
def deliverAll (throws : Nat → Bool) : List Nat → List Nat × Bool
  | [] => ([], false)
  | cb :: rest =>
    match runSubscriber throws cb with
    | .ok _ =>
      let r := deliverAll throws rest
      (cb :: r.1, r.2)
    | .error _ =>
      let r := deliverAll throws rest
      (cb :: r.1, r.2)

/-- Models `publishBoardEvent`: read the board's subscriber set (returning early
when absent or empty) and run the delivery loop.  The registry is
returned unchanged alongside the invoked callbacks and the
publisher-failure flag. -/
def publishBoardEvent (r : Registry) (bid : String) (throws : Nat → Bool) :
    Registry × (List Nat × Bool) :=
  match getSubscribers r bid with
  | [] => (r, ([], false))
  | subs => (r, deliverAll throws subs)

/-! ## Helper lemmas -/

theorem listMax_cons_eq {A : Type} [LinearOrder A] (a : A) (as : List A) :
    listMax (a :: as) =
      match listMax as with
      | none => some a
      | some m => some (max a m) := rfl

theorem listMax_cons {A : Type} [LinearOrder A] (a : A) (as : List A) :
    listMax (a :: as) ≠ none := by
  simp only [listMax]
  cases listMax as <;> simp

theorem listMax_le_of_mem {A : Type} [LinearOrder A] :
    ∀ {l : List A} {m x : A}, listMax l = some m → x ∈ l → x ≤ m := by
  intro l
  induction l with
  | nil => intro m x _ hx; cases hx
  | cons a as ih =>
    intro m x hm hx
    simp only [listMax] at hm
    cases has : listMax as with
    | none =>
      rw [has] at hm
      injection hm with hm
      subst hm
      rcases List.mem_cons.mp hx with rfl | hx2
      · exact le_refl _
      · cases as with
        | nil => cases hx2
        | cons b bs => exact absurd has (listMax_cons b bs)
    | some m2 =>
      rw [has] at hm
      injection hm with hm
      subst hm
      rcases List.mem_cons.mp hx with rfl | hx2
      · exact le_max_left _ _
      · exact le_trans (ih has hx2) (le_max_right _ _)

theorem listMax_append_of_lt {A : Type} [LinearOrder A] :
    ∀ {l : List A} {y : A}, (∀ x ∈ l, x < y) → listMax (l ++ [y]) = some y := by
  intro l
  induction l with
  | nil => intro y _; rfl
  | cons a as ih =>
    intro y h
    have hy : listMax (as ++ [y]) = some y :=
      ih (fun x hx => h x (List.mem_cons_of_mem a hx))
    have ha : a < y := h a (List.mem_cons_self a as)
    rw [List.cons_append, listMax_cons_eq, hy]
    simp [max_eq_right (le_of_lt ha)]

/-! ## Theorems -/

/-- Claim C4, counterexample: the claim states
`positionBetween(1, 1.00005) = 1.0001` (the ε-fallback).  In fact the
arithmetic midpoint of `1` and `1.00005` is `1.000025`, which differs
from both endpoints, so the function returns the midpoint and not
`prev + 0.0001`.  (The gap `2.5e-5` is more than ten orders of magnitude
above binary64 resolution near 1, so exact rational arithmetic and the
source's float arithmetic agree that no collapse happens and that the
result is not `1.0001`.) -/
theorem positionBetween_example_not_fallback :
    positionBetween (some 1) (some (1.00005 : Rat)) ≠ (1.0001 : Rat) := by
  norm_num [positionBetween]

/-- Claim C4, amended: `positionBetween` returns 0 when both arguments
are null, `next - 1` when only `prev` is null, `prev + 1` when only
`next` is null, and the arithmetic midpoint `(prev+next)/2` when both
are present and the midpoint differs from both endpoints (over exact
arithmetic: whenever `prev ≠ next`); when the midpoint coincides with an
endpoint (`prev = next`) it returns `prev + 0.0001`.  Concretely
`positionBetween(1, 2) = 1.5`, `positionBetween(null, 5) = 4`,
`positionBetween(7, null) = 8`, and `positionBetween(1, 1.00005)`
returns the midpoint `1.000025` (not the `1.0001` fallback). -/
theorem positionBetween_spec :
    positionBetween none none = 0 ∧
    (∀ n : Rat, positionBetween none (some n) = n - 1) ∧
    (∀ p : Rat, positionBetween (some p) none = p + 1) ∧
    (∀ p n : Rat, p ≠ n → positionBetween (some p) (some n) = (p + n) / 2) ∧
    (∀ p : Rat, positionBetween (some p) (some p) = p + 1 / 10000) ∧
    positionBetween (some 1) (some 2) = 1.5 ∧
    positionBetween none (some 5) = 4 ∧
    positionBetween (some 7) none = 8 ∧
    positionBetween (some 1) (some (1.00005 : Rat)) = (1.000025 : Rat) := by
  refine ⟨rfl, fun n => rfl, fun p => rfl, ?_, ?_, ?_, ?_, ?_, ?_⟩
  · intro p n h
    simp only [positionBetween]
    rw [if_neg]
    rintro (h1 | h1) <;> · apply h; field_simp at h1; linarith
  · intro p
    simp only [positionBetween]
    have h : (p + p) / 2 = p := by ring
    rw [if_pos (Or.inl h)]
  · norm_num [positionBetween]
  · norm_num [positionBetween]
  · norm_num [positionBetween]
  · norm_num [positionBetween]

/-- Claim C4, witness for the amended theorem's hypotheses: the midpoint
clause at `prev = 3`, `next = 5`. -/
theorem positionBetween_spec_witness :
    positionBetween (some 3) (some 5) = (3 + 5) / 2 :=
  positionBetween_spec.2.2.2.1 3 5 (by norm_num)

/-- The delivery loop reaches every subscriber and never propagates an
exception: the per-callback `catch` swallows failures. -/
theorem deliverAll_reaches_all (throws : Nat → Bool) :
    ∀ l : List Nat, deliverAll throws l = (l, false) := by
  intro l
  induction l with
  | nil => rfl
  | cons cb rest ih =>
    simp only [deliverAll, runSubscriber]
    by_cases h : throws cb = true
    · simp [h, ih]
    · simp [h, ih]

/-- Claim C9: `publishBoardEvent` invokes every callback currently
subscribed to the given board id even when some callbacks throw (each
subscriber's exception is swallowed, so it neither prevents delivery to
the remaining subscribers nor fails the publisher), and publish leaves
the subscriber registry exactly as it was — only subscribe and
unsubscribe mutate it. -/
theorem publishBoardEvent_spec :
    ∀ (r : Registry) (bid : String) (throws : Nat → Bool),
      (publishBoardEvent r bid throws).1 = r ∧
      (publishBoardEvent r bid throws).2.1 = getSubscribers r bid ∧
      (publishBoardEvent r bid throws).2.2 = false := by
  intro r bid throws
  simp only [publishBoardEvent]
  cases h : getSubscribers r bid with
  | nil => exact ⟨rfl, rfl, rfl⟩
  | cons cb rest =>
    simp [deliverAll_reaches_all]

/-- Those undo outcomes that actually mutate the store. -/
def isMutationRes : UndoRes → Bool
  | .undoneDeleted _ => true
  | .undoneReverted _ => true
  | .undoneRestored _ => true
  | _ => false

theorem undoCardCreated_success_events (a : Actor) (evt : ActivityEvent) (db : DB)
    (h : isMutationRes (undoCardCreated a evt db).1 = true) :
    ∃ mk, (undoCardCreated a evt db).2.events = db.events ++ [mk] ∧
      isUndoMarker evt mk = true := by
  cases hfind : db.cards.find? (fun c => c.id == evt.entityId) with
  | none => simp only [undoCardCreated, hfind] at h; simp [isMutationRes] at h
  | some existing =>
    simp only [undoCardCreated, hfind, logEvent, touchBoard]
    exact ⟨_, rfl, by simp [isUndoMarker]⟩

theorem undoCardPatchEvent_success_events (a : Actor) (evt : ActivityEvent) (db : DB)
    (h : isMutationRes (undoCardPatchEvent a evt db).1 = true) :
    ∃ mk, (undoCardPatchEvent a evt db).2.events = db.events ++ [mk] ∧
      isUndoMarker evt mk = true := by
  cases hp : eventBeforePatch evt.data with
  | none => simp only [undoCardPatchEvent, hp] at h; simp [isMutationRes] at h
  | some patch =>
    cases hfind : db.cards.find? (fun c => c.id == evt.entityId) with
    | none => simp only [undoCardPatchEvent, hp, hfind] at h; simp [isMutationRes] at h
    | some current =>
      simp only [undoCardPatchEvent, hp, hfind, logEvent, touchBoard]
      exact ⟨_, rfl, by simp [isUndoMarker]⟩

theorem undoCardDeleted_success_events (a : Actor) (evt : ActivityEvent) (db : DB)
    (h : isMutationRes (undoCardDeleted a evt db).1 = true) :
    ∃ mk, (undoCardDeleted a evt db).2.events = db.events ++ [mk] ∧
      isUndoMarker evt mk = true := by
  cases hst : asCardState evt.data.before with
  | none => simp only [undoCardDeleted, hst] at h; simp [isMutationRes] at h
  | some st =>
    cases hl : db.lists.find? (fun l => l.id == st.listId) with
    | none => simp only [undoCardDeleted, hst, hl] at h; simp [isMutationRes] at h
    | some l =>
      by_cases hb : l.boardId ≠ st.boardId
      · simp only [undoCardDeleted, hst, hl, if_pos hb] at h; simp [isMutationRes] at h
      · cases hc : db.cards.find? (fun c => c.id == st.id) with
        | some c0 =>
          simp only [undoCardDeleted, hst, hl, if_neg hb, hc] at h
          simp [isMutationRes] at h
        | none =>
          simp only [undoCardDeleted, hst, hl, if_neg hb, hc, logEvent, touchBoard]
          exact ⟨_, rfl, by simp [isUndoMarker]⟩

theorem undoCardEvent_success_events (a : Actor) (evt : ActivityEvent) (db : DB)
    (h : isMutationRes (undoCardEvent a evt db).1 = true) :
    ∃ mk, (undoCardEvent a evt db).2.events = db.events ++ [mk] ∧
      isUndoMarker evt mk = true := by
  by_cases h1 : evt.type = "card.created"
  · simp only [undoCardEvent, if_pos h1] at h ⊢
    exact undoCardCreated_success_events a evt db h
  · by_cases h2 : evt.type = "card.moved" ∨ evt.type = "card.updated"
    · simp only [undoCardEvent, if_neg h1, if_pos h2] at h ⊢
      exact undoCardPatchEvent_success_events a evt db h
    · by_cases h3 : evt.type = "card.deleted"
      · simp only [undoCardEvent, if_neg h1, if_neg h2, if_pos h3] at h ⊢
        exact undoCardDeleted_success_events a evt db h
      · simp only [undoCardEvent, if_neg h1, if_neg h2, if_neg h3] at h
        simp [isMutationRes] at h

theorem undoTx_success_events (a : Actor) (eid : String) (db : DB)
    (h : isMutationRes (undoTx a eid db).1 = true) :
    ∃ evt mk, db.events.find? (fun e => e.id == eid) = some evt ∧
      (undoTx a eid db).2.events = db.events ++ [mk] ∧
      isUndoMarker evt mk = true := by
  cases hfind : db.events.find? (fun e => e.id == eid) with
  | none => simp only [undoTx, hfind] at h; simp [isMutationRes] at h
  | some evt =>
    cases hmk : db.events.find? (fun e => isUndoMarker evt e) with
    | some m => simp only [undoTx, hfind, hmk] at h; simp [isMutationRes] at h
    | none =>
      by_cases hct : evt.entityType = .CARD
      · simp only [undoTx, hfind, hmk, if_pos hct] at h ⊢
        obtain ⟨mk, hev, hmk2⟩ := undoCardEvent_success_events a evt db h
        exact ⟨evt, mk, rfl, hev, hmk2⟩
      · simp only [undoTx, hfind, hmk, if_neg hct] at h; simp [isMutationRes] at h

/-- Whenever the activity log already holds a `card.undone` event whose
payload references the target event, an undo request is a pure no-op
success. -/
theorem undoTx_marker_noop (a : Actor) (eid : String) (db : DB) (evt : ActivityEvent)
    (hfind : db.events.find? (fun e => e.id == eid) = some evt)
    (hmk : ∃ mk ∈ db.events, isUndoMarker evt mk = true) :
    undoTx a eid db = (.alreadyUndone, db) := by
  have hsome : (db.events.find? (fun e => isUndoMarker evt e)).isSome :=
    List.find?_isSome.mpr hmk
  cases hmarker : db.events.find? (fun e => isUndoMarker evt e) with
  | none => rw [hmarker] at hsome; simp at hsome
  | some m => simp only [undoTx, hfind, hmarker]

/-- Claim C1: undo is idempotent per event id.  First conjunct: if a
`card.undone` event whose payload `revertedEventId` equals the target
event's id already exists (on the event's board, which is where every
successful undo records it), any undo request for that id returns the
`alreadyUndone` no-op success and the whole store — boards, lists,
cards and the activity log — is returned unchanged.  Second conjunct:
after an undo that performed a mutation, a repeated undo of the same
event id is exactly such a no-op: only the first undo mutates. -/
theorem undo_idempotent :
    (∀ (a : Actor) (eid : String) (db : DB) (evt : ActivityEvent),
      db.events.find? (fun e => e.id == eid) = some evt →
      (∃ mk ∈ db.events, isUndoMarker evt mk = true) →
      undoTx a eid db = (.alreadyUndone, db)) ∧
    (∀ (a a2 : Actor) (eid : String) (db : DB) (r : UndoRes) (db2 : DB),
      undoTx a eid db = (r, db2) →
      isMutationRes r = true →
      undoTx a2 eid db2 = (.alreadyUndone, db2)) := by
  constructor
  · exact undoTx_marker_noop
  · intro a a2 eid db r db2 h hr
    have hr2 : isMutationRes (undoTx a eid db).1 = true := by rw [h]; exact hr
    obtain ⟨evt, mk, hfind, hev, hmk⟩ := undoTx_success_events a eid db hr2
    have hev2 : db2.events = db.events ++ [mk] := by rw [← hev, h]
    have hfind2 : db2.events.find? (fun e => e.id == eid) = some evt := by
      rw [hev2, List.find?_append, hfind]
      rfl
    exact undoTx_marker_noop a2 eid db2 evt hfind2
      ⟨mk, by rw [hev2]; exact List.mem_append_right _ (List.mem_singleton_self mk), hmk⟩

/-- A concrete actor for witness scenarios. -/
def actA : Actor :=
  { actorUserId := none, actorName := "David", actorClientId := "client-a" }

/-- A concrete store: board `b1` with list `l1`, card `c1` and the
`card.created` event `e0` for that card. -/
def dbU : DB :=
  { boards := [{ id := "b1", name := "Sprint", createdAt := 0, updatedAt := 0 }],
    lists := [{ id := "l1", boardId := "b1", title := "Todo", position := 1,
                createdAt := 0, updatedAt := 0 }],
    cards := [{ id := "c1", boardId := "b1", listId := "l1", title := "Fix bug",
                description := "", dueAt := none, position := 1,
                createdAt := 0, updatedAt := 0 }],
    events := [{ id := "e0", boardId := "b1", entityType := .CARD, entityId := "c1",
                 type := "card.created", actorUserId := none, actorName := "David",
                 actorClientId := "client-a", data := {}, createdAt := 0 }],
    now := 1, nextId := 0 }

/-- Claim C1, witness: undoing the concrete `card.created` event `e0`
mutates the store once; the repeated undo is the `alreadyUndone` no-op
leaving the store untouched. -/
theorem undo_idempotent_witness :
    undoTx actA "e0" ((undoTx actA "e0" dbU).2) =
      (.alreadyUndone, (undoTx actA "e0" dbU).2) :=
  undo_idempotent.2 actA actA "e0" dbU (undoTx actA "e0" dbU).1 (undoTx actA "e0" dbU).2
    rfl (by decide)

/-- Claim C6: undoing a `card.moved` / `card.updated` event (with no
prior undo marker) patches the *current* card with exactly the fields
present in the event's logged `before` snapshot (for `listId`: present
and non-empty, matching the route's truthiness test) and leaves every
other field of the card at its current value, so edits made after the
original event to fields absent from the snapshot survive the undo. -/
theorem undo_partial_revert
    (a : Actor) (eid : String) (db : DB) (evt : ActivityEvent) (p : CardPatch) (c : Card)
    (hfind : db.events.find? (fun e => e.id == eid) = some evt)
    (hnomk : db.events.find? (fun e => isUndoMarker evt e) = none)
    (hct : evt.entityType = .CARD)
    (hty : evt.type = "card.moved" ∨ evt.type = "card.updated")
    (hp : eventBeforePatch evt.data = some p)
    (hc : db.cards.find? (fun x => x.id == evt.entityId) = some c) :
    ∃ u db2, undoTx a eid db = (.undoneReverted u, db2) ∧
      u.id = c.id ∧ u.boardId = c.boardId ∧
      u.createdAt = c.createdAt ∧
      (p.title = none → u.title = c.title) ∧
      (∀ t, p.title = some t → u.title = t) ∧
      (p.description = none → u.description = c.description) ∧
      (∀ s, p.description = some s → u.description = s) ∧
      (p.dueAt = none → u.dueAt = c.dueAt) ∧
      (∀ v, p.dueAt = some v → u.dueAt = some v) ∧
      (p.position = none → u.position = c.position) ∧
      (∀ q, p.position = some q → u.position = q) ∧
      ((p.listId = none ∨ p.listId = some "") → u.listId = c.listId) ∧
      (∀ l, p.listId = some l → l ≠ "" → u.listId = l) := by
  have hpatch : undoTx a eid db = undoCardPatchEvent a evt db := by
    have h1 : evt.type ≠ "card.created" := by
      rcases hty with h | h <;> rw [h] <;> decide
    have h3 : evt.type ≠ "card.deleted" := by
      rcases hty with h | h <;> rw [h] <;> decide
    simp only [undoTx, hfind, hnomk, if_pos hct, undoCardEvent, if_neg h1, if_pos hty]
  rw [hpatch]
  simp only [undoCardPatchEvent, hp, hc, logEvent, touchBoard]
  refine ⟨applyBeforePatch p c db.now, _, rfl, rfl, rfl, rfl, ?_, ?_, ?_, ?_, ?_, ?_, ?_, ?_, ?_, ?_⟩
  · intro h; simp [applyBeforePatch, h]
  · intro t h; simp [applyBeforePatch, h]
  · intro h; simp [applyBeforePatch, h]
  · intro s h; simp [applyBeforePatch, h]
  · intro h; simp [applyBeforePatch, h]
  · intro v h; simp [applyBeforePatch, h]
  · intro h; simp [applyBeforePatch, h]
  · intro q h; simp [applyBeforePatch, h]
  · rintro (h | h) <;> simp [applyBeforePatch, h]
  · intro l h hne; simp [applyBeforePatch, h, hne]

/-- A concrete store for the partial-revert witness: card `c2` was moved
out of list `l1` (event `e1` logs `before = {listId: "l1", position: 1}`),
then its title was edited to `"New title"`.  The title is absent from the
move snapshot. -/
def dbV : DB :=
  { boards := [{ id := "b1", name := "Sprint", createdAt := 0, updatedAt := 0 }],
    lists := [{ id := "l1", boardId := "b1", title := "Todo", position := 1,
                createdAt := 0, updatedAt := 0 },
              { id := "l2", boardId := "b1", title := "Doing", position := 2,
                createdAt := 0, updatedAt := 0 }],
    cards := [{ id := "c2", boardId := "b1", listId := "l2", title := "New title",
                description := "", dueAt := none, position := 5,
                createdAt := 0, updatedAt := 0 }],
    events := [{ id := "e1", boardId := "b1", entityType := .CARD, entityId := "c2",
                 type := "card.moved", actorUserId := none, actorName := "David",
                 actorClientId := "client-a",
                 data := { before := some { listId := some "l1", position := some 1 },
                           after := some { listId := some "l2", position := some 5 } },
                 createdAt := 0 }],
    now := 1, nextId := 0 }

/-- Claim C6, witness: undoing the concrete move event `e1` reverts
`listId` and `position` (the snapshot's fields) on the current card and
keeps the concurrently edited title `"New title"`. -/
theorem undo_partial_revert_witness :
    ∃ u db2, undoTx actA "e1" dbV = (.undoneReverted u, db2) ∧
      u.title = "New title" ∧ u.listId = "l1" ∧ u.position = 1 := by
  obtain ⟨u, db2, hres, _, _, _, htnone, _, _, _, _, _, _, hpos, _, hlist⟩ :=
    undo_partial_revert actA "e1" dbV
      { id := "e1", boardId := "b1", entityType := .CARD, entityId := "c2",
        type := "card.moved", actorUserId := none, actorName := "David",
        actorClientId := "client-a",
        data := { before := some { listId := some "l1", position := some 1 },
                  after := some { listId := some "l2", position := some 5 } },
        createdAt := 0 }
      { listId := some "l1", position := some 1 }
      { id := "c2", boardId := "b1", listId := "l2", title := "New title",
        description := "", dueAt := none, position := 5,
        createdAt := 0, updatedAt := 0 }
      (by decide) (by decide) (by decide) (by decide) (by decide) (by decide)
  exact ⟨u, db2, hres, htnone rfl, hlist "l1" rfl (by decide), hpos 1 rfl⟩

/-- Claim C5: undoing a `card.deleted` event (with no prior undo
marker) recreates the card with its original id and the field values
recorded in the event's `before` snapshot, provided the snapshot's list
still exists and belongs to the snapshot's board.  If the list is gone
or belongs to a different board the undo fails as unsupported; if a
card with the snapshot's id already exists it returns `alreadyUndone`
without mutating any state (the store is returned unchanged). -/
theorem undo_restore_deleted
    (a : Actor) (eid : String) (db : DB) (evt : ActivityEvent) (st : CardState)
    (hfind : db.events.find? (fun e => e.id == eid) = some evt)
    (hnomk : db.events.find? (fun e => isUndoMarker evt e) = none)
    (hct : evt.entityType = .CARD)
    (hty : evt.type = "card.deleted")
    (hst : asCardState evt.data.before = some st) :
    (db.lists.find? (fun l => l.id == st.listId) = none →
      undoTx a eid db = (.unsupported "Cannot restore: original list no longer exists", db)) ∧
    (∀ l, db.lists.find? (fun l2 => l2.id == st.listId) = some l → l.boardId ≠ st.boardId →
      undoTx a eid db = (.unsupported "Cannot restore: original list no longer exists", db)) ∧
    (∀ l c0, db.lists.find? (fun l2 => l2.id == st.listId) = some l → l.boardId = st.boardId →
      db.cards.find? (fun c => c.id == st.id) = some c0 →
      undoTx a eid db = (.alreadyUndone, db)) ∧
    (∀ l, db.lists.find? (fun l2 => l2.id == st.listId) = some l → l.boardId = st.boardId →
      db.cards.find? (fun c => c.id == st.id) = none →
      ∃ u db2, undoTx a eid db = (.undoneRestored u, db2) ∧
        u.id = st.id ∧ u.boardId = st.boardId ∧ u.listId = st.listId ∧
        (∀ t, st.title = some t → u.title = t) ∧
        (∀ s, st.description = some s → u.description = s) ∧
        u.dueAt = st.dueAt ∧
        (∀ q, st.position = some q → u.position = q) ∧
        u ∈ db2.cards) := by
  have hdel : undoTx a eid db = undoCardDeleted a evt db := by
    have h1 : evt.type ≠ "card.created" := by rw [hty]; decide
    have h2 : ¬(evt.type = "card.moved" ∨ evt.type = "card.updated") := by
      rw [hty]; decide
    simp only [undoTx, hfind, hnomk, if_pos hct, undoCardEvent, if_neg h1, if_neg h2,
      if_pos hty]
  rw [hdel]
  refine ⟨?_, ?_, ?_, ?_⟩
  · intro hl
    simp only [undoCardDeleted, hst, hl]
  · intro l hl hb
    simp only [undoCardDeleted, hst, hl, if_pos hb]
  · intro l c0 hl hb hc
    simp only [undoCardDeleted, hst, hl, if_neg (not_not_intro hb), hc]
  · intro l hl hb hc
    simp only [undoCardDeleted, hst, hl, if_neg (not_not_intro hb), hc, logEvent, touchBoard]
    refine ⟨_, _, rfl, rfl, rfl, rfl, ?_, ?_, ?_, ?_, ?_⟩
    · intro t h; simp [h]
    · intro s h; simp [h]
    · rfl
    · intro q h; simp [h]
    · exact List.mem_append_right _ (List.mem_singleton_self _)

/-- The logged `before` snapshot of card `c3` used by the restore
witness. -/
def payloadC3 : Payload :=
  { id := some "c3", boardId := some "b1", listId := some "l1",
    title := some "Fix bug", description := some "", dueAt := some none,
    position := some 1, createdAtField := some 0, updatedAtField := some 0 }

/-- Concrete store for the restore witness: event `e2` logs the deletion
of card `c3` (full `before` snapshot); list `l1` still exists on board
`b1` and no card `c3` is present. -/
def dbW : DB :=
  { boards := [{ id := "b1", name := "Sprint", createdAt := 0, updatedAt := 0 }],
    lists := [{ id := "l1", boardId := "b1", title := "Todo", position := 1,
                createdAt := 0, updatedAt := 0 }],
    cards := [],
    events := [{ id := "e2", boardId := "b1", entityType := .CARD, entityId := "c3",
                 type := "card.deleted", actorUserId := none, actorName := "David",
                 actorClientId := "client-a",
                 data := { before := some payloadC3, after := none },
                 createdAt := 0 }],
    now := 1, nextId := 0 }

/-- Claim C5, witness: undoing the concrete `card.deleted` event `e2`
recreates card `c3` in list `l1` with the snapshot's title and
position. -/
theorem undo_restore_deleted_witness :
    ∃ u db2, undoTx actA "e2" dbW = (.undoneRestored u, db2) ∧
      u.id = "c3" ∧ u.listId = "l1" ∧ u.title = "Fix bug" ∧ u.position = 1 := by
  obtain ⟨-, -, -, hd⟩ :=
    undo_restore_deleted actA "e2" dbW
      { id := "e2", boardId := "b1", entityType := .CARD, entityId := "c3",
        type := "card.deleted", actorUserId := none, actorName := "David",
        actorClientId := "client-a",
        data := { before := some payloadC3, after := none },
        createdAt := 0 }
      { id := "c3", boardId := "b1", listId := "l1",
        title := some "Fix bug", description := some "",
        dueAt := none, position := some 1 }
      (by decide) (by decide) (by decide) (by decide) (by decide)
  obtain ⟨u, db2, hres, hid, -, hlist, htitle, -, -, hpos, -⟩ :=
    hd { id := "l1", boardId := "b1", title := "Todo", position := 1,
         createdAt := 0, updatedAt := 0 }
      (by decide) (by decide) (by decide)
  exact ⟨u, db2, hres, hid, hlist, htitle "Fix bug" rfl, hpos 1 rfl⟩

/-- The empty store. -/
def emptyDB : DB :=
  { boards := [], lists := [], cards := [], events := [], now := 0, nextId := 0 }

/-- A board with one existing activity event, for the board-deletion
counterexample. -/
def dbB : DB :=
  { boards := [{ id := "b1", name := "Sprint", createdAt := 0, updatedAt := 0 }],
    lists := [], cards := [],
    events := [{ id := "e0", boardId := "b1", entityType := .BOARD, entityId := "b1",
                 type := "board.created", actorUserId := none, actorName := "David",
                 actorClientId := "client-a", data := {}, createdAt := 0 }],
    now := 1, nextId := 1 }

/-- Claim C2, counterexample: board creation commits *four* activity
events (one `board.created` plus three `list.created`), and board
deletion commits while creating *zero* events — it even removes the
board's existing events via the cascade.  Both contradict "exactly one
ActivityEvent per committed mutating operation, in particular for board
creation and board deletion". -/
theorem board_mutation_event_count_counterexample :
    (createBoardTx actA (some "Sprint") emptyDB).2.events.length = 4 ∧
    (deleteBoardTx "b1" dbB).1 = .deleted "b1" ∧
    (deleteBoardTx "b1" dbB).2.events = [] ∧
    dbB.events.length = 1 := by
  refine ⟨?_, ?_, ?_, ?_⟩ <;> decide

/-- Claim C2, amended: every mutating operation on a List or Card
(create/rename/delete list, create/update/move/delete card), board
rename, the activity-clear marker, and every undo that mutates, creates
exactly one ActivityEvent in its transaction; board creation creates
four (one `board.created` plus one `list.created` per default list);
board deletion creates none and cascades away the board's existing
events. -/
theorem mutation_event_counts :
    (∀ (a : Actor) (nm : Option String) (db : DB), ∃ e1 e2 e3 e4,
      (createBoardTx a nm db).2.events = db.events ++ [e1, e2, e3, e4]) ∧
    (∀ (bid : String) (db : DB), (deleteBoardTx bid db).1 ≠ .notFound →
      (deleteBoardTx bid db).2.events =
        db.events.filter (fun e => !(e.boardId == bid))) ∧
    (∀ (a : Actor) (bid nm : String) (db : DB), (renameBoardTx a bid nm db).1 ≠ .notFound →
      ∃ ev, (renameBoardTx a bid nm db).2.events = db.events ++ [ev]) ∧
    (∀ (a : Actor) (bid t : String) (db : DB), ∃ ev,
      (createListTx a bid t db).2.events = db.events ++ [ev]) ∧
    (∀ (a : Actor) (bid lid t : String) (db : DB), (renameListTx a bid lid t db).1 ≠ .notFound →
      ∃ ev, (renameListTx a bid lid t db).2.events = db.events ++ [ev]) ∧
    (∀ (a : Actor) (bid lid : String) (db : DB), (deleteListTx a bid lid db).1 ≠ .notFound →
      ∃ ev, (deleteListTx a bid lid db).2.events = db.events ++ [ev]) ∧
    (∀ (a : Actor) (bid lid t d : String) (due : Option Int) (db : DB), ∃ ev,
      (createCardTx a bid lid t d due db).2.events = db.events ++ [ev]) ∧
    (∀ (a : Actor) (cid : String) (inp : CardPatchInput) (db : DB),
      (updateCardTx a cid inp db).1 ≠ .notFound →
      ∃ ev, (updateCardTx a cid inp db).2.events = db.events ++ [ev]) ∧
    (∀ (a : Actor) (cid : String) (db : DB), (deleteCardTx a cid db).1 ≠ .notFound →
      ∃ ev, (deleteCardTx a cid db).2.events = db.events ++ [ev]) ∧
    (∀ (a : Actor) (cid tl : String) (bc ac : Option String) (db : DB),
      (moveCardTx a cid tl bc ac db).1 ≠ .notFound →
      (moveCardTx a cid tl bc ac db).1 ≠ .invalidNeighbors →
      ∃ ev, (moveCardTx a cid tl bc ac db).2.events = db.events ++ [ev]) ∧
    (∀ (a : Actor) (bid : String) (db : DB), (clearActivityTx a bid db).1 ≠ .notFound →
      ∃ ev, (clearActivityTx a bid db).2.events = db.events ++ [ev]) ∧
    (∀ (a : Actor) (eid : String) (db : DB), isMutationRes (undoTx a eid db).1 = true →
      ∃ ev, (undoTx a eid db).2.events = db.events ++ [ev]) := by
  refine ⟨?_, ?_, ?_, ?_, ?_, ?_, ?_, ?_, ?_, ?_, ?_, ?_⟩
  · intro a nm db
    have app4 : ∀ (l : List ActivityEvent) (e1 e2 e3 e4 : ActivityEvent),
        (((l ++ [e1]) ++ [e2]) ++ [e3]) ++ [e4] = l ++ [e1, e2, e3, e4] := by
      intro l e1 e2 e3 e4; simp
    simp only [createBoardTx, logEvent]
    exact ⟨_, _, _, _, app4 db.events _ _ _ _⟩
  · intro bid db h
    cases hf : db.boards.find? (fun b => b.id == bid) with
    | none => simp only [deleteBoardTx, hf] at h; exact absurd rfl h
    | some before =>
      have hid : before.id = bid := by
        have := List.find?_some hf
        simpa using this
      simp only [deleteBoardTx, hf, hid]
  · intro a bid nm db h
    cases hf : db.boards.find? (fun b => b.id == bid) with
    | none => simp only [renameBoardTx, hf] at h; exact absurd rfl h
    | some before =>
      simp only [renameBoardTx, hf, logEvent]
      exact ⟨_, rfl⟩
  · intro a bid t db
    simp only [createListTx, logEvent, touchBoard]
    exact ⟨_, rfl⟩
  · intro a bid lid t db h
    cases hf : db.lists.find? (fun l => l.id == lid && l.boardId == bid) with
    | none => simp only [renameListTx, hf] at h; exact absurd rfl h
    | some before =>
      simp only [renameListTx, hf, logEvent, touchBoard]
      exact ⟨_, rfl⟩
  · intro a bid lid db h
    cases hf : db.lists.find? (fun l => l.id == lid && l.boardId == bid) with
    | none => simp only [deleteListTx, hf] at h; exact absurd rfl h
    | some before =>
      simp only [deleteListTx, hf, logEvent, touchBoard]
      exact ⟨_, rfl⟩
  · intro a bid lid t d due db
    simp only [createCardTx, logEvent, touchBoard]
    exact ⟨_, rfl⟩
  · intro a cid inp db h
    cases hf : db.cards.find? (fun c => c.id == cid) with
    | none => simp only [updateCardTx, hf] at h; exact absurd rfl h
    | some before =>
      simp only [updateCardTx, hf, logEvent, touchBoard]
      exact ⟨_, rfl⟩
  · intro a cid db h
    cases hf : db.cards.find? (fun c => c.id == cid) with
    | none => simp only [deleteCardTx, hf] at h; exact absurd rfl h
    | some before =>
      simp only [deleteCardTx, hf, logEvent, touchBoard]
      exact ⟨_, rfl⟩
  · intro a cid tl bc ac db h1 h2
    cases hf : db.cards.find? (fun c => c.id == cid) with
    | none => simp only [moveCardTx, hf] at h1; exact absurd rfl h1
    | some card =>
      by_cases hb : ((resolveNeighbor db bc).map (fun n => !(n.listId == tl))).getD false = true
      · simp only [moveCardTx, hf, hb, if_true] at h2; exact absurd rfl h2
      · by_cases ha : ((resolveNeighbor db ac).map (fun n => !(n.listId == tl))).getD false = true
        · simp only [moveCardTx, hf, hb, ha, if_true, Bool.false_eq_true, if_false] at h2
          exact absurd rfl h2
        · simp only [moveCardTx, hf, hb, ha, Bool.false_eq_true, if_false, logEvent,
            touchBoard]
          exact ⟨_, rfl⟩
  · intro a bid db h
    cases hf : db.boards.find? (fun b => b.id == bid) with
    | none => simp only [clearActivityTx, hf] at h; exact absurd rfl h
    | some b =>
      simp only [clearActivityTx, hf, logEvent, touchBoard]
      exact ⟨_, rfl⟩
  · intro a eid db h
    obtain ⟨evt, mk, _, hev, _⟩ := undoTx_success_events a eid db h
    exact ⟨mk, hev⟩

/-- Claim C2, witness for the amended theorem: the activity-clear
transaction on the concrete board `b1` appends exactly one event. -/
theorem mutation_event_counts_witness :
    ∃ ev, (clearActivityTx actA "b1" dbB).2.events = dbB.events ++ [ev] :=
  mutation_event_counts.2.2.2.2.2.2.2.2.2.2.1 actA "b1" dbB (by decide)

/-- The position of a successful move result. -/
def movedPosition : MoveCardRes → Option Rat
  | .moved c => some c.position
  | _ => none

/-- Concrete store for the move theorems: card `c1` sits in list `l1`;
list `l2` is empty. -/
def dbV2 : DB :=
  { boards := [{ id := "b1", name := "Sprint", createdAt := 0, updatedAt := 0 }],
    lists := [{ id := "l1", boardId := "b1", title := "Todo", position := 1,
                createdAt := 0, updatedAt := 0 },
              { id := "l2", boardId := "b1", title := "Doing", position := 2,
                createdAt := 0, updatedAt := 0 }],
    cards := [{ id := "c1", boardId := "b1", listId := "l1", title := "Fix bug",
                description := "", dueAt := none, position := 1,
                createdAt := 0, updatedAt := 0 }],
    events := [], now := 1, nextId := 0 }

/-- Shape of a move without resolved neighbors: it succeeds for an
existing card and appends to the destination list,
`positionBetween(last ?? null, null)`. -/
theorem moveCardTx_no_neighbors_shape (a : Actor) (cid tl : String) (db : DB) (card : Card)
    (hc : db.cards.find? (fun c => c.id == cid) = some card) :
    ∃ u db2, moveCardTx a cid tl none none db = (.moved u, db2) ∧
      u.position = positionBetween (lastCardPosition db.cards tl) none ∧
      (∀ m, lastCardPosition db.cards tl = some m → u.position = m + 1) ∧
      (lastCardPosition db.cards tl = none → u.position = 0) ∧
      (∀ c ∈ db.cards, c.listId = tl → c.position < u.position) := by
  simp only [moveCardTx, hc, resolveNeighbor, Option.map_none, Option.getD_none,
    Bool.false_eq_true, if_false, logEvent, touchBoard]
  refine ⟨_, _, rfl, rfl, ?_, ?_, ?_⟩
  · intro m hm
    simp only [hm, positionBetween]
  · intro hm
    simp only [hm, positionBetween]
  · intro c hcmem hl
    cases hm : lastCardPosition db.cards tl with
    | none =>
      have hpos : c.position ∈
          (db.cards.filter (fun x => x.listId == tl)).map (fun x => x.position) :=
        List.mem_map_of_mem _ (List.mem_filter.mpr ⟨hcmem, by simp [hl]⟩)
      unfold lastCardPosition at hm
      cases hcons : (db.cards.filter (fun x => x.listId == tl)).map (fun x => x.position) with
      | nil => rw [hcons] at hpos; cases hpos
      | cons y ys => rw [hcons] at hm; exact absurd hm (listMax_cons y ys)
    | some m =>
      have hpos : c.position ∈
          (db.cards.filter (fun x => x.listId == tl)).map (fun x => x.position) :=
        List.mem_map_of_mem _ (List.mem_filter.mpr ⟨hcmem, by simp [hl]⟩)
      have hle : c.position ≤ m := listMax_le_of_mem hm hpos
      have hpb : positionBetween (some m) none = m + 1 := rfl
      show c.position < positionBetween (some m) none
      rw [hpb]
      linarith

/-- Claim C3, counterexample: the claim says a card moved with no
neighbors into an empty destination list gets position `1`.  In the
concrete store below, list `l2` is empty and moving `c1` into it yields
position `0` (the route computes `positionBetween(null, null) = 0`
here, not `positionAfter(null) = 1`). -/
theorem move_empty_dest_position_zero :
    movedPosition (moveCardTx actA "c1" "l2" none none dbV2).1 = some 0 ∧
    movedPosition (moveCardTx actA "c1" "l2" none none dbV2).1 ≠ some 1 := by
  constructor <;> decide

/-- Claim C3, amended: moving a card with neither `beforeCardId` nor
`afterCardId` supplied appends it to the end of the destination list
(strictly above every card currently there; `lastPosition + 1` when the
list is non-empty), and when the destination list currently contains no
cards the moved card's resulting position is `0`
(`positionBetween(null, null)`), not `1`. -/
theorem move_no_neighbors_appends (a : Actor) (cid tl : String) (db : DB) (card : Card)
    (hc : db.cards.find? (fun c => c.id == cid) = some card) :
    ∃ u db2, moveCardTx a cid tl none none db = (.moved u, db2) ∧
      u.position = positionBetween (lastCardPosition db.cards tl) none ∧
      (∀ m, lastCardPosition db.cards tl = some m → u.position = m + 1) ∧
      (lastCardPosition db.cards tl = none → u.position = 0) ∧
      (∀ c ∈ db.cards, c.listId = tl → c.position < u.position) :=
  moveCardTx_no_neighbors_shape a cid tl db card hc

/-- Claim C3, witness for the amended theorem: moving `c1` into the
empty list `l2` of the concrete store succeeds with position `0`. -/
theorem move_no_neighbors_appends_witness :
    ∃ u db2, moveCardTx actA "c1" "l2" none none dbV2 = (.moved u, db2) ∧
      u.position = 0 := by
  obtain ⟨u, db2, hres, -, -, hempty, -⟩ :=
    move_no_neighbors_appends actA "c1" "l2" dbV2
      { id := "c1", boardId := "b1", listId := "l1", title := "Fix bug",
        description := "", dueAt := none, position := 1,
        createdAt := 0, updatedAt := 0 }
      (by decide)
  exact ⟨u, db2, hres, hempty (by decide)⟩

/-- Claim C10: in the move route, a supplied `beforeCardId` or
`afterCardId` that matches no existing card is treated exactly like an
absent neighbor — the transaction is identical to one without that
neighbor argument, so no NotFound / Conflict arises from the missing
neighbor — and when both neighbors are absent or unresolvable the
(existing) card is moved after the destination list's current last
card. -/
theorem move_unresolvable_neighbors_as_absent :
    (∀ (a : Actor) (cid tl : String) (bc ac : Option String) (db : DB),
      resolveNeighbor db bc = none →
      moveCardTx a cid tl bc ac db = moveCardTx a cid tl none ac db) ∧
    (∀ (a : Actor) (cid tl : String) (bc ac : Option String) (db : DB),
      resolveNeighbor db ac = none →
      moveCardTx a cid tl bc ac db = moveCardTx a cid tl bc none db) ∧
    (∀ (a : Actor) (cid tl : String) (bc ac : Option String) (db : DB) (card : Card),
      db.cards.find? (fun c => c.id == cid) = some card →
      resolveNeighbor db bc = none →
      resolveNeighbor db ac = none →
      ∃ u db2, moveCardTx a cid tl bc ac db = (.moved u, db2) ∧
        (∀ m, lastCardPosition db.cards tl = some m → u.position = m + 1) ∧
        (∀ c ∈ db.cards, c.listId = tl → c.position < u.position)) := by
  have heqb : ∀ (a : Actor) (cid tl : String) (bc ac : Option String) (db : DB),
      resolveNeighbor db bc = none →
      moveCardTx a cid tl bc ac db = moveCardTx a cid tl none ac db := by
    intro a cid tl bc ac db hb
    have hnone : ∀ d : DB, resolveNeighbor d none = none := fun _ => rfl
    simp only [moveCardTx, hb, hnone]
  have heqa : ∀ (a : Actor) (cid tl : String) (bc ac : Option String) (db : DB),
      resolveNeighbor db ac = none →
      moveCardTx a cid tl bc ac db = moveCardTx a cid tl bc none db := by
    intro a cid tl bc ac db ha
    have hnone : ∀ d : DB, resolveNeighbor d none = none := fun _ => rfl
    simp only [moveCardTx, ha, hnone]
  refine ⟨heqb, heqa, ?_⟩
  intro a cid tl bc ac db card hc hb ha
  rw [heqb a cid tl bc ac db hb, heqa a cid tl none ac db ha]
  obtain ⟨u, db2, hres, -, hlast, -, hgt⟩ :=
    moveCardTx_no_neighbors_shape a cid tl db card hc
  exact ⟨u, db2, hres, hlast, hgt⟩

/-- Claim C10, witness: moving `c1` to `l1` while supplying two
neighbor ids that match no card succeeds and lands after `l1`'s current
last card (position `1 + 1 = 2`). -/
theorem move_unresolvable_neighbors_witness :
    ∃ u db2, moveCardTx actA "c1" "l1" (some "ghost1") (some "ghost2") dbV2 =
      (.moved u, db2) ∧ u.position = 2 := by
  obtain ⟨u, db2, hres, hlast, -⟩ :=
    move_unresolvable_neighbors_as_absent.2.2 actA "c1" "l1" (some "ghost1") (some "ghost2")
      dbV2
      { id := "c1", boardId := "b1", listId := "l1", title := "Fix bug",
        description := "", dueAt := none, position := 1,
        createdAt := 0, updatedAt := 0 }
      (by decide) (by decide) (by decide)
  refine ⟨u, db2, hres, ?_⟩
  rw [hlast 1 (by decide)]
  norm_num

/-- Claim C8, counterexample: for a caller-specified limit of `0` the
route computes `parseInt("0") || 50 = 50`, not the clamp of `0` into
`[1, 200]` (which would be `1`). -/
theorem effectiveLimit_zero_not_clamped :
    effectiveLimit (some 0) = 50 ∧
    effectiveLimit (some 0) ≠ (min (max (0 : Int) 1) 200).toNat := by
  constructor <;> decide

/-- Claim C8, amended: every activity query returns the board's newest
visible events ordered newest-first, at most `effectiveLimit` many,
where the effective limit is `50` when the caller gives no limit (or one
that does not parse), equals the caller-specified limit clamped to
`[1, 200]` for any nonzero parsed limit, and is `50` (not `1`) for a
parsed limit of `0`, which falls into the `|| 50` fallback. -/
theorem activity_query_limit_spec :
    effectiveLimit none = 50 ∧
    (∀ n : Int, n ≠ 0 → effectiveLimit (some n) = (min (max n 1) 200).toNat) ∧
    effectiveLimit (some 0) = 50 ∧
    (∀ (db : DB) (bid cid : String) (lo : Option Int),
      (activityQuery db bid cid lo).length ≤ effectiveLimit lo) ∧
    (∀ (db : DB) (bid cid : String) (lo : Option Int),
      (activityQuery db bid cid lo).Sorted newerFirst) ∧
    (∀ (db : DB) (bid cid : String) (lo : Option Int),
      ∀ e ∈ activityQuery db bid cid lo, e ∈ db.events ∧ e.boardId = bid) ∧
    (∀ (db : DB) (bid cid : String) (lo : Option Int) (e f : ActivityEvent),
      e ∈ activityQuery db bid cid lo → f ∈ visibleEvents db bid cid →
      f ∉ activityQuery db bid cid lo → f.createdAt ≤ e.createdAt) := by
  refine ⟨rfl, ?_, rfl, ?_, ?_, ?_, ?_⟩
  · intro n hn
    simp only [effectiveLimit, if_neg hn]
  · intro db bid cid lo
    exact List.length_take_le _ _
  · intro db bid cid lo
    exact (List.sorted_insertionSort newerFirst (visibleEvents db bid cid)).sublist
      (List.take_sublist _ _)
  · intro db bid cid lo e he
    have hv : e ∈ visibleEvents db bid cid :=
      (List.mem_insertionSort newerFirst).mp (List.mem_of_mem_take he)
    obtain ⟨hmem, hp⟩ := List.mem_filter.mp hv
    refine ⟨hmem, ?_⟩
    have hb : (e.boardId == bid) = true := by
      cases hand : (e.boardId == bid) with
      | true => rfl
      | false => rw [hand] at hp; simp at hp
    simpa using hb
  · intro db bid cid lo e f he hf hnf
    set sorted := List.insertionSort newerFirst (visibleEvents db bid cid) with hsorted
    set lim := effectiveLimit lo with hlim
    have hsf : f ∈ sorted := (List.mem_insertionSort newerFirst).mpr hf
    have hsplit : sorted.take lim ++ sorted.drop lim = sorted := List.take_append_drop lim sorted
    have hpair : (sorted.take lim ++ sorted.drop lim).Pairwise newerFirst := by
      rw [hsplit]
      exact List.sorted_insertionSort newerFirst (visibleEvents db bid cid)
    have hfd : f ∈ sorted.drop lim := by
      rcases (List.mem_append.mp (by rw [hsplit]; exact hsf)) with h1 | h2
      · exact absurd h1 hnf
      · exact h2
    exact (List.pairwise_append.mp hpair).2.2 e he f hfd

/-- Claim C8, witness: the nonzero-limit clause at limit `7`: the
effective limit is the clamp of `7` into `[1, 200]`. -/
theorem activity_query_limit_witness :
    effectiveLimit (some 7) = (min (max (7 : Int) 1) 200).toNat :=
  activity_query_limit_spec.2.1 7 (by decide)

theorem latestClearedAt_append_marker (events : List ActivityEvent) (mk : ActivityEvent)
    (bid cid : String) (hm : mk.boardId = bid) (ht : mk.type = "activity.cleared")
    (hc : mk.actorClientId = cid)
    (hlt : ∀ e ∈ events, e.createdAt < mk.createdAt) :
    latestClearedAt (events ++ [mk]) bid cid = some mk.createdAt := by
  unfold latestClearedAt
  rw [List.filter_append]
  have hone : List.filter (fun e =>
      e.boardId == bid && e.type == "activity.cleared" && e.actorClientId == cid) [mk] =
      [mk] := by
    simp [hm, ht, hc]
  rw [hone, List.map_append, List.map_cons, List.map_nil]
  apply listMax_append_of_lt
  intro x hx
  obtain ⟨e, he, rfl⟩ := List.mem_map.mp hx
  exact hlt e (List.mem_filter.mp he).1

theorem latestClearedAt_append_other (events : List ActivityEvent) (mk : ActivityEvent)
    (b2 cid2 : String) (hne : mk.actorClientId ≠ cid2) :
    latestClearedAt (events ++ [mk]) b2 cid2 = latestClearedAt events b2 cid2 := by
  unfold latestClearedAt
  rw [List.filter_append]
  have hnone : List.filter (fun e =>
      e.boardId == b2 && e.type == "activity.cleared" && e.actorClientId == cid2) [mk] =
      [] := by
    simp [hne]
  rw [hnone, List.append_nil]

/-- Every event an activity query returns was created strictly after the
querying actor's most recent clear marker (when one exists). -/
theorem activityQuery_after_marker (db3 : DB) (b cid : String) (lo : Option Int) (m : Nat)
    (hm : latestClearedAt db3.events b cid = some m) :
    ∀ e ∈ activityQuery db3 b cid lo, m < e.createdAt := by
  intro e he
  have hv : e ∈ visibleEvents db3 b cid :=
    (List.mem_insertionSort newerFirst).mp (List.mem_of_mem_take he)
  obtain ⟨hmem, hp⟩ := List.mem_filter.mp hv
  rw [hm] at hp
  rcases Bool.and_eq_true_iff.mp hp with ⟨-, h2⟩
  exact of_decide_eq_true h2

/-- Claim C7: clearing activity appends an `activity.cleared` marker
tagged with the clearing actor's client id and deletes nothing; the
marker becomes that actor's most recent clear; any activity query
returns only events created strictly after the querying actor's most
recent marker (so events at or before the marker, the marker itself
included, are excluded — in particular the clearing actor's query right
after the clear is empty); and the marker of one actor does not enter
the clear threshold of any actor with a different client id. -/
theorem clearActivity_per_actor
    (a : Actor) (bid : String) (db : DB) (r : ClearActivityRes) (db2 : DB)
    (h : clearActivityTx a bid db = (r, db2))
    (hb : (db.boards.find? (fun b => b.id == bid)).isSome)
    (hclock : ∀ e ∈ db.events, e.createdAt < db.now) :
    (∀ e ∈ db.events, e ∈ db2.events) ∧
    (latestClearedAt db2.events bid a.actorClientId = some db.now) ∧
    (∀ cid2, cid2 ≠ a.actorClientId → ∀ b2 : String,
      latestClearedAt db2.events b2 cid2 = latestClearedAt db.events b2 cid2) ∧
    (∀ lo, activityQuery db2 bid a.actorClientId lo = []) ∧
    (∀ (db3 : DB) (b cid : String) (lo : Option Int) (m : Nat),
      latestClearedAt db3.events b cid = some m →
      ∀ e ∈ activityQuery db3 b cid lo, m < e.createdAt) ∧
    (∀ (db3 : DB) (b cid : String) (lo : Option Int) (m : Nat),
      latestClearedAt db3.events b cid = some m →
      ∀ e, e.createdAt ≤ m → e ∉ activityQuery db3 b cid lo) := by
  cases hf : db.boards.find? (fun b => b.id == bid) with
  | none => rw [hf] at hb; simp at hb
  | some b0 =>
    simp only [clearActivityTx, hf, logEvent, touchBoard] at h
    rw [Prod.mk.injEq] at h
    obtain ⟨hr, hdb⟩ := h
    have hev : db2.events = db.events ++
        [{ id := "e" ++ toString db.nextId, boardId := bid, entityType := .BOARD,
           entityId := bid, type := "activity.cleared", actorUserId := a.actorUserId,
           actorName := a.actorName, actorClientId := a.actorClientId,
           data := { before := none, after := none, revertedEventId := none },
           createdAt := db.now }] := by
      rw [← hdb]
    have hlc : latestClearedAt db2.events bid a.actorClientId = some db.now := by
      rw [hev]
      exact latestClearedAt_append_marker db.events _ bid a.actorClientId rfl rfl rfl hclock
    refine ⟨?_, hlc, ?_, ?_, activityQuery_after_marker, ?_⟩
    · intro e he
      rw [hev]
      exact List.mem_append_left _ he
    · intro cid2 hne b2
      rw [hev]
      exact latestClearedAt_append_other db.events _ b2 cid2 (Ne.symm hne)
    · intro lo
      have hvis : visibleEvents db2 bid a.actorClientId = [] := by
        unfold visibleEvents
        rw [hlc]
        apply List.filter_eq_nil_iff.mpr
        intro e he
        rw [hev] at he
        rcases List.mem_append.mp he with hold | hnew
        · have : ¬ (db.now < e.createdAt) := Nat.not_lt.mpr (le_of_lt (hclock e hold))
          simp [this]
        · rcases List.mem_singleton.mp hnew with rfl
          simp
      simp [activityQuery, hvis]
    · intro db3 b cid lo m hm e hle hin
      exact absurd (activityQuery_after_marker db3 b cid lo m hm e hin) (Nat.not_lt.mpr hle)

/-- Claim C7, witness: clearing board `b1`'s activity as the concrete
actor deletes nothing, installs the marker as that actor's latest clear,
and empties that actor's next activity query. -/
theorem clearActivity_per_actor_witness :
    (∀ e ∈ dbB.events, e ∈ (clearActivityTx actA "b1" dbB).2.events) ∧
    latestClearedAt (clearActivityTx actA "b1" dbB).2.events "b1" actA.actorClientId =
      some dbB.now ∧
    (∀ lo, activityQuery (clearActivityTx actA "b1" dbB).2 "b1" actA.actorClientId lo = []) := by
  obtain ⟨h1, h2, -, h4, -, -⟩ :=
    clearActivity_per_actor actA "b1" dbB (clearActivityTx actA "b1" dbB).1
      (clearActivityTx actA "b1" dbB).2 rfl (by decide) (by decide)
  exact ⟨h1, h2, h4⟩

end Kanby
